import Mathlib

/-!
Shallow embedding of the `aws-auto-refresh` credential cache lifecycle and
refresh engine, covering:

* `src/cache-manager.js` — cache file read/validate/write (CredentialStore),
* `src/token-refresher.js` — the OIDC exchange, error classification,
  sanitization and retry loop (RefreshClient),
* `src/index.js` — the per-cycle scheduler logic (`refreshTokenIfNeeded`).

JSON cache records are modelled as association lists of string fields, JS
object spread/update as order-preserving field update, JS `Date` parsing as a
parser for the ISO-8601 UTC subset this program reads and writes, and the
daemon's mutable module state as an explicit state record threaded through a
pure cycle function.  HTTP and filesystem effects are modelled as explicit
outcome values handed to the functions that consume them.
-/

namespace AwsAutoRefresh

/-! ## JS-level helpers -/

/-- A JS object record with string-valued fields, in property order.
Cache files and OIDC error payloads are flat JSON objects of strings. -/
abbrev JsRecord := List (String × String)

/-- JS truthiness of a string: only the empty string is falsy. -/
def jsTruthy (s : String) : Bool := s ≠ ""

/-- Property lookup `obj[k]` (`none` when the field is absent).  JS object
keys are unique, so first-occurrence lookup is exact. -/
def getField : JsRecord → String → Option String
  | [], _ => none
  | kv :: rest, k => if kv.1 = k then some kv.2 else getField rest k

/-- Property update `obj[k] = v` / spread-override semantics: an existing
field keeps its position and gets the new value, a new field is appended. -/
def setField : JsRecord → String → String → JsRecord
  | [], k, v => [(k, v)]
  | kv :: rest, k, v =>
      if kv.1 = k then (k, v) :: rest else kv :: setField rest k v

/-- `pat` occurs at the head of `s`. -/
def startsWithChars : List Char → List Char → Bool
  | [], _ => true
  | _ :: _, [] => false
  | a :: as, b :: bs => a == b && startsWithChars as bs

/-- `pat` occurs somewhere inside `s`. -/
def hasSubChars (pat : List Char) : List Char → Bool
  | [] => startsWithChars pat []
  | b :: bs => startsWithChars pat (b :: bs) || hasSubChars pat bs

/-- JS `String.prototype.includes`: substring containment. -/
def strContains (s pat : String) : Bool :=
  hasSubChars pat.toList s.toList

/-! ## Date model

`validateAndParseDate` calls `new Date(dateString)` and rejects `NaN`.  We
model the ISO-8601 UTC forms this program actually reads and writes:
`YYYY-MM-DDTHH:MM:SSZ` and `YYYY-MM-DDTHH:MM:SS.mmmZ` (the latter is what
`Date.prototype.toISOString` produces).  Parsing yields milliseconds since
the Unix epoch. -/

/-- Digits of a character run, `none` if any is not a digit. -/
def parseDigits (cs : List Char) : Option Nat :=
  cs.foldl (fun acc c =>
    match acc with
    | none => none
    | some n => if c.isDigit then some (n * 10 + (c.toNat - 48)) else none)
    (some 0)

/-- Days from 1970-01-01 to the civil date y-m-d (proleptic Gregorian). -/
def daysFromCivil (y m d : Int) : Int :=
  let y' : Int := if m ≤ 2 then y - 1 else y
  let era : Int := (if 0 ≤ y' then y' else y' - 399) / 400
  let yoe : Int := y' - era * 400
  let mp : Int := (m + 9) % 12
  let doy : Int := (153 * mp + 2) / 5 + d - 1
  let doe : Int := yoe * 365 + yoe / 4 - yoe / 100 + doy
  era * 146097 + doe - 719468

/-- Parse an ISO-8601 UTC timestamp to epoch milliseconds. -/
def parseIsoDate (s : String) : Option Int :=
  let cs := s.toList
  let core (y mo d h mi sec ms : List Char) : Option Int := do
    let y ← parseDigits y
    let mo ← parseDigits mo
    let d ← parseDigits d
    let h ← parseDigits h
    let mi ← parseDigits mi
    let sec ← parseDigits sec
    let ms ← parseDigits ms
    if 1 ≤ mo ∧ mo ≤ 12 ∧ 1 ≤ d ∧ d ≤ 31 ∧ h ≤ 23 ∧ mi ≤ 59 ∧ sec ≤ 59 then
      some ((daysFromCivil y mo d * 86400 + h * 3600 + mi * 60 + sec) * 1000 + ms)
    else
      none
  match cs with
  | [y1,y2,y3,y4,'-',m1,m2,'-',d1,d2,'T',h1,h2,':',n1,n2,':',s1,s2,'Z'] =>
      core [y1,y2,y3,y4] [m1,m2] [d1,d2] [h1,h2] [n1,n2] [s1,s2] ['0']
  | [y1,y2,y3,y4,'-',m1,m2,'-',d1,d2,'T',h1,h2,':',n1,n2,':',s1,s2,'.',f1,f2,f3,'Z'] =>
      core [y1,y2,y3,y4] [m1,m2] [d1,d2] [h1,h2] [n1,n2] [s1,s2] [f1,f2,f3]
  | _ => none

/-- Left-pad a number with zeros to the given width. -/
def padNum (width n : Nat) : String :=
  let s := toString n
  String.mk (List.replicate (width - s.length) '0') ++ s

/-- Civil date from days since the epoch (inverse of `daysFromCivil`). -/
def civilFromDays (z : Int) : Int × Int × Int :=
  let z := z + 719468
  let era : Int := (if 0 ≤ z then z else z - 146096) / 146097
  let doe : Int := z - era * 146097
  let yoe : Int := (doe - doe / 1460 + doe / 36524 - doe / 146096) / 365
  let y : Int := yoe + era * 400
  let doy : Int := doe - (365 * yoe + yoe / 4 - yoe / 100)
  let mp : Int := (5 * doy + 2) / 153
  let d : Int := doy - (153 * mp + 2) / 5 + 1
  let m : Int := mp + (if mp < 10 then 3 else -9)
  (y + (if m ≤ 2 then 1 else 0), m, d)

/-- `Date.prototype.toISOString`: epoch milliseconds rendered as
`YYYY-MM-DDTHH:MM:SS.mmmZ`. -/
def epochMsToIso (t : Int) : String :=
  let days := t.fdiv 86400000
  let rem := (t.emod 86400000).toNat
  let (y, m, d) := civilFromDays days
  let ms := rem % 1000
  let secs := rem / 1000
  padNum 4 y.toNat ++ "-" ++ padNum 2 m.toNat ++ "-" ++ padNum 2 d.toNat ++
    "T" ++ padNum 2 (secs / 3600) ++ ":" ++ padNum 2 (secs / 60 % 60) ++ ":" ++
    padNum 2 (secs % 60) ++ "." ++ padNum 3 ms ++ "Z"

/-! ## Configuration

The validated configuration object handed to the core (`src/config.js`).
`refreshThreshold` is in milliseconds (`REFRESH_THRESHOLD` seconds × 1000). -/

structure Config where
  refreshThreshold : Int
  maxRetryAttempts : Int
  retryBackoffSeconds : Nat
  awsSsoProfile : String
  oidcEndpoint : String
  deriving Repr, DecidableEq

/-- `CONSTANTS.EXPIRY_WARNING_THRESHOLD_MINUTES` — notify if the token
expires in this many minutes or less. -/
def EXPIRY_WARNING_THRESHOLD_MINUTES : Int := 10

/-- `CONSTANTS.MAX_CONSECUTIVE_FAILURES` — warn after this many consecutive
failed refresh cycles. -/
def MAX_CONSECUTIVE_FAILURES : Nat := 5

/-- `getLoginCommand()` from `src/config.js`. -/
def getLoginCommand (cfg : Config) : String :=
  "aws sso login --profile " ++ cfg.awsSsoProfile

/-- `getReloginErrorMessage(message)` from `src/config.js`. -/
def getReloginErrorMessage (cfg : Config) (message : String) : String :=
  message ++ "\nPlease run: " ++ getLoginCommand cfg

/-! ## CredentialStore (`src/cache-manager.js`) -/

/-- The five required cache fields checked by `readTokenCache`. -/
def requiredFields : List String :=
  ["accessToken", "refreshToken", "clientId", "clientSecret", "expiresAt"]

/-- `readTokenCache()`: the cache file is modelled as `none` (missing /
unlocatable) or `some record` (parsed JSON).  Validates the five required
fields are present and truthy and that `expiresAt` parses as a date;
returns the parsed record unchanged on success. -/
def readTokenCache (cfg : Config) (file : Option JsRecord) :
    Except String JsRecord :=
  match file with
  | none =>
      .error (getReloginErrorMessage cfg "Cache file not found")
  | some cacheData =>
      let missing := requiredFields.filter
        (fun f => !(jsTruthy ((getField cacheData f).getD "")))
      if missing ≠ [] then
        .error (getReloginErrorMessage cfg
          ("Cache file missing required fields: " ++ String.intercalate ", " missing))
      else
        match getField cacheData "expiresAt" with
        | some e =>
            if (parseIsoDate e).isSome then
              .ok cacheData
            else
              .error (getReloginErrorMessage cfg "Cache file has invalid expiry date")
        | none =>
            .error (getReloginErrorMessage cfg
              "Cache file missing required fields: expiresAt")

/-- The `newTokens` argument of `writeTokenCache`: `refreshToken = none`
models an absent property. -/
structure NewTokens where
  accessToken : String
  expiresAt : String
  refreshToken : Option String
  deriving Repr, DecidableEq

/-- The merge performed by `writeTokenCache`:
`{ ...currentCache, accessToken, expiresAt,
   ...(newTokens.refreshToken && { refreshToken: newTokens.refreshToken }) }`.
The refresh token is only overridden when the property is present *and*
truthy (JS `&&` on the string). -/
def writeTokenCacheMerge (currentCache : JsRecord) (newTokens : NewTokens) :
    JsRecord :=
  let r := setField currentCache "accessToken" newTokens.accessToken
  let r := setField r "expiresAt" newTokens.expiresAt
  match newTokens.refreshToken with
  | some rt => if jsTruthy rt then setField r "refreshToken" rt else r
  | none => r

/-- `writeTokenCache(newTokens)`: re-reads the current file (plain
`JSON.parse`, no field validation) and atomically replaces it with the
merged record.  Returns the new file contents. -/
def writeTokenCache (file : Option JsRecord) (newTokens : NewTokens) :
    Except String JsRecord :=
  match file with
  | none => .error "Cache file not found"
  | some currentCache => .ok (writeTokenCacheMerge currentCache newTokens)

/-- `getTimeUntilExpiry(expiresAt)`: milliseconds until expiry, negative when
already expired; throws when the date does not parse. -/
def getTimeUntilExpiry (expiresAt : String) (now : Int) : Except String Int :=
  match parseIsoDate expiresAt with
  | some t => .ok (t - now)
  | none => .error ("Invalid date format: " ++ expiresAt)

/-- `shouldRefresh(expiresAt)`: true iff `timeUntilExpiry <= refreshThreshold`. -/
def shouldRefresh (cfg : Config) (expiresAt : String) (now : Int) :
    Except String Bool :=
  match getTimeUntilExpiry expiresAt now with
  | .ok t => .ok (decide (t ≤ cfg.refreshThreshold))
  | .error e => .error e

/-- JS `Math.floor(a / b)` for integer `a` and positive integer `b`. -/
def jsFloorDiv (a b : Int) : Int := a.fdiv b

/-- JS `Math.round(a / b)` for integer `a` and positive integer `b`
(half-values round toward positive infinity). -/
def jsRoundDiv (a b : Int) : Int := (2 * a + b).fdiv (2 * b)

/-- `formatTimeRemaining(expiresAt)`: `'2h 15m'` or `'45m'`; negative
remainders still render (e.g. `'-10m'`). -/
def formatTimeRemaining (expiresAt : String) (now : Int) :
    Except String String :=
  match getTimeUntilExpiry expiresAt now with
  | .error e => .error e
  | .ok t =>
      let minutes := jsFloorDiv t 60000
      let hours := jsFloorDiv minutes 60
      if 0 < hours then
        .ok (toString hours ++ "h " ++ toString (minutes % 60) ++ "m")
      else
        .ok (toString minutes ++ "m")

/-- Result object of `getTokenStatus()`. -/
structure TokenStatus where
  expiresAt : Option String := none
  timeUntilExpiry : Option Int := none
  expired : Bool
  needsRefresh : Bool
  formattedTimeRemaining : Option String := none
  error : Option String := none
  deriving Repr, DecidableEq

/-- `getTokenStatus()`: reads the cache and summarizes; on any failure it
returns `{ error, expired: true, needsRefresh: true }` instead of throwing. -/
def getTokenStatus (cfg : Config) (file : Option JsRecord) (now : Int) :
    TokenStatus :=
  let fail (msg : String) : TokenStatus :=
    { error := some msg, expired := true, needsRefresh := true }
  match readTokenCache cfg file with
  | .error msg => fail msg
  | .ok cache =>
      match getField cache "expiresAt" with
      | none => fail "Date string is required and must be a string"
      | some e =>
          match parseIsoDate e with
          | none => fail ("Invalid date format: " ++ e)
          | some tExp =>
              let t := tExp - now
              let minutes := jsFloorDiv t 60000
              let hours := jsFloorDiv minutes 60
              { expiresAt := some e
                timeUntilExpiry := some t
                expired := decide (t ≤ 0)
                needsRefresh := decide (t ≤ cfg.refreshThreshold)
                formattedTimeRemaining := some (if 0 < hours then
                    toString hours ++ "h " ++ toString (minutes % 60) ++ "m"
                  else
                    toString minutes ++ "m") }

/-! ## RefreshClient (`src/token-refresher.js`) -/

/-- `sensitiveFields` — field names replaced by `'[REDACTED]'` in
`sanitizeApiResponse`. -/
def sensitiveFields : List String :=
  ["accessToken", "access_token", "refreshToken", "refresh_token", "token",
   "clientSecret", "client_secret", "secret", "password", "apiKey", "api_key",
   "authorization"]

/-- `sanitizeApiResponse(data)`: shallow copy with every *top-level* field
whose name is exactly one of `sensitiveFields` replaced by `'[REDACTED]'`
(object records have unique keys, so the `forEach` over the field list is a
per-entry replacement). -/
def sanitizeApiResponse (data : JsRecord) : JsRecord :=
  data.map (fun kv =>
    if kv.1 ∈ sensitiveFields then (kv.1, "[REDACTED]") else kv)

/-- Render one JSON object entry `"k":"v"` (values in these payloads contain
no characters needing JSON escaping). -/
def jsonPair (kv : String × String) : String :=
  "\"" ++ kv.1 ++ "\":\"" ++ kv.2 ++ "\""

/-- Comma-join. -/
def joinComma : List String → String
  | [] => ""
  | [x] => x
  | x :: xs => x ++ "," ++ joinComma xs

/-- `JSON.stringify` of a flat string-valued object. -/
def stringifyJson (data : JsRecord) : String :=
  "\x7b" ++ joinComma (data.map jsonPair) ++ "\x7d"

/-- The value returned by a successful `refreshToken` call. -/
structure TokenData where
  accessToken : String
  refreshToken : String
  expiresAt : String
  expiresIn : Int
  deriving Repr, DecidableEq

/-- Outcome of the single `axios.post` to the OIDC endpoint, as observed by
`refreshToken`'s `try`/`catch`:

* `ok` — HTTP success; the three relevant `response.data` fields
  (`none` models an absent property);
* `canceled` — the request was aborted (`CanceledError` / `ERR_CANCELED`);
* `httpError` — a response with an error status and a JSON error payload;
* `netError` — no response; `code` and `message` of the transport error. -/
inductive HttpOutcome where
  | ok (accessToken : Option String) (newRefreshToken : Option String)
      (expiresIn : Option Int)
  | canceled
  | httpError (status : Nat) (data : JsRecord)
  | netError (code : String) (message : String)
  deriving Repr, DecidableEq

/-- `refreshToken(credentials)`: classification of one exchange outcome into
a returned token record or a thrown error message, following the
`try`/`catch` of `src/token-refresher.js`.  `credRefreshToken` is
`credentials.refreshToken`; `now` is `Date.now()` at response time. -/
def refreshToken (cfg : Config) (credRefreshToken : String) (now : Int)
    (outcome : HttpOutcome) : Except String TokenData :=
  match outcome with
  | .ok accessToken newRefreshToken expiresIn =>
      -- `if (!accessToken || !expiresIn)`: absent, empty or zero fails.
      let tokOk := jsTruthy (accessToken.getD "")
      let expOk := (expiresIn.getD 0) ≠ 0
      if tokOk ∧ expOk then
        let tok := accessToken.getD ""
        let exp := expiresIn.getD 0
        .ok { accessToken := tok
              refreshToken :=
                if jsTruthy (newRefreshToken.getD "") then newRefreshToken.getD ""
                else credRefreshToken
              expiresAt := epochMsToIso (now + exp * 1000)
              expiresIn := exp }
      else
        -- thrown inside `try`, re-wrapped by the unknown-error fallthrough
        .error ("Token refresh failed: " ++
          "Invalid response from OIDC endpoint: missing accessToken or expiresIn")
  | .canceled =>
      .error "Token refresh canceled due to shutdown"
  | .httpError status data =>
      if status = 400 ∧ getField data "error" = some "invalid_grant" then
        .error (getReloginErrorMessage cfg "Refresh token is invalid or expired")
      else if status = 401 then
        .error (getReloginErrorMessage cfg "Client credentials are invalid")
      else
        .error ("OIDC API error (" ++ toString status ++ "): " ++
          stringifyJson (sanitizeApiResponse data))
  | .netError code message =>
      if code = "ECONNREFUSED" ∨ code = "ENOTFOUND" then
        .error ("Network error: Cannot reach OIDC endpoint at " ++
          cfg.oidcEndpoint ++ ". Check your internet connection.")
      else if code = "ETIMEDOUT" ∨ code = "ECONNABORTED" then
        .error ("Request timeout: OIDC endpoint at " ++ cfg.oidcEndpoint ++
          " did not respond in time.")
      else
        .error ("Token refresh failed: " ++ message)

/-- `nonRetryableErrors` — message patterns that stop the retry loop. -/
def nonRetryableErrors : List String :=
  ["invalid_grant", "invalid or expired", "credentials are invalid",
   "canceled due to shutdown"]

/-- ASCII `String.prototype.toLowerCase` on the character list. -/
def lowerChars (l : List Char) : List Char := l.map Char.toLower

/-- `nonRetryableErrors.some(msg => error.message.toLowerCase()
.includes(msg.toLowerCase()))`. -/
def isNonRetryable (message : String) : Bool :=
  nonRetryableErrors.any (fun pat =>
    hasSubChars (lowerChars pat.toList) (lowerChars message.toList))

/-- Result of one attempt inside `refreshTokenWithRetry` (the resolved or
rejected promise of `refreshToken`). -/
inductive AttemptResult where
  | ok (tokens : TokenData)
  | err (message : String)
  deriving Repr, DecidableEq

/-- `attempts i` is retryable-failed: an error matching no fatal pattern. -/
def retryableErr (a : AttemptResult) : Bool :=
  match a with
  | .ok _ => false
  | .err m => !isNonRetryable m

/-- Observable result of a whole `refreshTokenWithRetry` call: the settled
value (`error none` models `throw lastError` with `lastError` still
`undefined`), the number of attempts performed, and the backoff sleeps (in
milliseconds) taken between attempts, in order. -/
structure RetryTrace where
  result : Except (Option String) TokenData
  attempts : Nat
  waitsMs : List Nat
  deriving Repr

instance {ε : Type u} {α : Type v} [DecidableEq ε] [DecidableEq α] :
    DecidableEq (Except ε α) := fun a b =>
  match a, b with
  | .ok x, .ok y =>
      if h : x = y then .isTrue (by rw [h]) else .isFalse (by simp [h])
  | .error x, .error y =>
      if h : x = y then .isTrue (by rw [h]) else .isFalse (by simp [h])
  | .ok _, .error _ => .isFalse (by simp)
  | .error _, .ok _ => .isFalse (by simp)

instance : DecidableEq RetryTrace := fun a b =>
  match a, b with
  | ⟨r₁, n₁, w₁⟩, ⟨r₂, n₂, w₂⟩ =>
      if h : r₁ = r₂ ∧ n₁ = n₂ ∧ w₁ = w₂ then
        .isTrue (by obtain ⟨h1, h2, h3⟩ := h; rw [h1, h2, h3])
      else
        .isFalse (by rintro ⟨⟩; exact h ⟨rfl, rfl, rfl⟩)

/-- The `for (let attempt = 1; attempt <= maxAttempts; attempt++)` loop of
`refreshTokenWithRetry`, with `remaining = maxAttempts - attempt + 1`
iterations left.  `attemptOutcome i` is what `refreshToken` settles to on
the i-th attempt (1-based). -/
def retryGo (attemptOutcome : Nat → AttemptResult) (backoffSeconds : Nat) :
    (attempt remaining : Nat) → (lastError : Option String) → RetryTrace
  | _, 0, lastError => { result := .error lastError, attempts := 0, waitsMs := [] }
  | attempt, r + 1, _ =>
      match attemptOutcome attempt with
      | .ok tokens => { result := .ok tokens, attempts := 1, waitsMs := [] }
      | .err message =>
          if isNonRetryable message then
            { result := .error (some message), attempts := 1, waitsMs := [] }
          else if r = 0 then
            -- last attempt failed; loop exits and throws `lastError`
            { result := .error (some message), attempts := 1, waitsMs := [] }
          else
            let wait := backoffSeconds * attempt * 1000
            let rest := retryGo attemptOutcome backoffSeconds (attempt + 1) r
              (some message)
            { result := rest.result
              attempts := rest.attempts + 1
              waitsMs := wait :: rest.waitsMs }

/-- `refreshTokenWithRetry(credentials, maxAttempts)` over a sequence of
per-attempt outcomes.  A non-positive `maxAttempts` runs zero loop
iterations and throws the never-assigned `lastError` (i.e. `undefined`). -/
def refreshTokenWithRetry (attemptOutcome : Nat → AttemptResult)
    (backoffSeconds : Nat) (maxAttempts : Int) : RetryTrace :=
  retryGo attemptOutcome backoffSeconds 1 maxAttempts.toNat none

/-! ## RefreshScheduler (`src/index.js`) -/

/-- Upward per-cycle reports issued through the notifier. -/
inductive Notification where
  | expiringSoon (minutesRemaining : Int)
  | refreshed (expiresAt : String) (expiresIn : Int)
  | reloginRequired
  | refreshError (message : String)
  deriving Repr, DecidableEq

/-- The daemon's module-level mutable state in `src/index.js`. -/
structure DaemonState where
  isShuttingDown : Bool
  timerArmed : Bool
  consecutiveFailures : Nat
  file : Option JsRecord
  deriving Repr, DecidableEq

/-- Observable result of one `refreshTokenIfNeeded()` cycle. -/
structure CycleResult where
  state : DaemonState
  notifications : List Notification
  /-- the `MAX_CONSECUTIVE_FAILURES` warning log was emitted -/
  warned : Bool
  /-- number of OIDC exchange attempts performed this cycle -/
  exchangeAttempts : Nat
  deriving Repr, DecidableEq

/-- The shared `catch` block of `refreshTokenIfNeeded`. -/
def cycleFailure (st : DaemonState) (message : String)
    (notifications : List Notification) (attempts : Nat) : CycleResult :=
  let failures := st.consecutiveFailures + 1
  let report :=
    if strContains message "invalid or expired" ∨
        strContains message "invalid_grant" then
      Notification.reloginRequired
    else
      Notification.refreshError message
  { state := { st with consecutiveFailures := failures }
    notifications := notifications ++ [report]
    warned := decide (failures = MAX_CONSECUTIVE_FAILURES)
    exchangeAttempts := attempts }

/-- One `refreshTokenIfNeeded()` cycle as a pure state transformer.
`attemptOutcome` supplies the per-attempt OIDC exchange outcomes of this
cycle; `now` is the clock reading.  Returns `none` in the one state the
`catch` block itself throws: `refreshTokenWithRetry` rejected with the
never-assigned `undefined` (only reachable when `maxRetryAttempts < 1`),
where `error.message` raises a `TypeError` that escapes the function. -/
def refreshTokenIfNeeded (cfg : Config) (now : Int)
    (attemptOutcome : Nat → AttemptResult) (st : DaemonState) :
    Option CycleResult :=
  if st.isShuttingDown then
    some { state := st, notifications := [], warned := false,
           exchangeAttempts := 0 }
  else
    match readTokenCache cfg st.file with
    | .error msg => some (cycleFailure st msg [] 0)
    | .ok cache =>
        match getField cache "expiresAt", parseIsoDate ((getField cache "expiresAt").getD "") with
        | some _, some tExp =>
            let t := tExp - now
            if ¬ (t ≤ cfg.refreshThreshold) then
              -- not due: reset failure counter and return
              some { state := { st with consecutiveFailures := 0 }
                     notifications := [], warned := false, exchangeAttempts := 0 }
            else
              let minutesRemaining := jsRoundDiv t 60000
              let warnNotes :=
                if minutesRemaining ≤ EXPIRY_WARNING_THRESHOLD_MINUTES then
                  [Notification.expiringSoon minutesRemaining]
                else []
              let trace := refreshTokenWithRetry attemptOutcome
                cfg.retryBackoffSeconds cfg.maxRetryAttempts
              match trace.result with
              | .ok tokens =>
                  match writeTokenCache st.file
                      { accessToken := tokens.accessToken
                        expiresAt := tokens.expiresAt
                        refreshToken := some tokens.refreshToken } with
                  | .ok newFile =>
                      some { state :=
                               { st with
                                 consecutiveFailures := 0
                                 file := some newFile }
                             notifications := warnNotes ++
                               [Notification.refreshed tokens.expiresAt tokens.expiresIn]
                             warned := false
                             exchangeAttempts := trace.attempts }
                  | .error msg =>
                      some (cycleFailure st msg warnNotes trace.attempts)
              | .error (some msg) =>
                  some (cycleFailure st msg warnNotes trace.attempts)
              | .error none => none
        | _, _ =>
            -- unreachable after a successful read (`expiresAt` validated)
            some (cycleFailure st "Date string is required and must be a string" [] 0)

/-! ## Atomic cache-file write

`writeTokenCache` delegates the on-disk replacement to the
`write-file-atomic` package, which is outside this repository's sources.

Modelled from the spec: "content is fully written to a temporary location
… and only then renamed into place, so a concurrent reader never observes a
partially-written file and a crash mid-write cannot corrupt the live cache";
"only fully-written files ever occupy the final path".  The missing code is
the `write-file-atomic` implementation; the model below is a transition
system over the two paths it touches. -/

/-- Filesystem state visible to cache readers during one atomic write:
the bytes at the final cache path, and the temporary file (if created). -/
structure FsState where
  finalContent : String
  tempContent : Option String
  deriving Repr, DecidableEq

/-- One step of the atomic write of `newContent`: either (partially or
fully) writing the temporary file, or renaming the fully-written temporary
file over the final path. -/
inductive WriteStep (newContent : String) : FsState → FsState → Prop
  | writeTemp (s : FsState) (c : String)
      (h : startsWithChars c.toList newContent.toList = true) :
      WriteStep newContent s { finalContent := s.finalContent, tempContent := some c }
  | rename (s : FsState) (h : s.tempContent = some newContent) :
      WriteStep newContent s { finalContent := newContent, tempContent := none }

/-- States reachable during the atomic write of `newContent` starting from
a final path holding `oldContent` and no temporary file. -/
def writeReachable (oldContent newContent : String) (s : FsState) : Prop :=
  Relation.ReflTransGen (WriteStep newContent)
    { finalContent := oldContent, tempContent := none } s

/-- States reachable when the process is interrupted before the rename:
only `writeTemp` steps have happened. -/
def writeInterrupted (oldContent newContent : String) (s : FsState) : Prop :=
  Relation.ReflTransGen
    (fun s₁ s₂ => WriteStep newContent s₁ s₂ ∧ s₂.tempContent ≠ none)
    { finalContent := oldContent, tempContent := none } s

/-! ## Helper lemmas: field update -/

theorem getField_setField_self (r : JsRecord) (k v : String) :
    getField (setField r k v) k = some v := by
  induction r with
  | nil => simp [setField, getField]
  | cons kv rest ih =>
      by_cases h : kv.1 = k
      · simp [setField, getField, h]
      · simp [setField, getField, h, ih]

theorem getField_setField_ne (r : JsRecord) (k v k' : String) (h : k' ≠ k) :
    getField (setField r k v) k' = getField r k' := by
  have h2 : ¬(k = k') := fun hh => h hh.symm
  induction r with
  | nil => simp [setField, getField, h2]
  | cons kv rest ih =>
      by_cases hk : kv.1 = k
      · simp [setField, getField, hk, h2]
      · simp [setField, getField, hk, ih]

/-! ## Helper lemmas: substring containment -/

theorem startsWithChars_refl (l : List Char) : startsWithChars l l = true := by
  induction l with
  | nil => rfl
  | cons a as ih => simp [startsWithChars, ih]

theorem startsWithChars_extend (p s t : List Char)
    (h : startsWithChars p s = true) : startsWithChars p (s ++ t) = true := by
  induction p generalizing s with
  | nil => rfl
  | cons a as ih =>
      match s with
      | [] => simp [startsWithChars] at h
      | b :: bs =>
          simp [startsWithChars] at h ⊢
          exact ⟨h.1, ih bs h.2⟩

theorem hasSubChars_of_startsWith (p s : List Char)
    (h : startsWithChars p s = true) : hasSubChars p s = true := by
  match s with
  | [] => exact h
  | b :: bs => simp [hasSubChars, h]

theorem hasSubChars_nil_pat (s : List Char) : hasSubChars [] s = true := by
  induction s with
  | nil => rfl
  | cons b bs ih => simp [hasSubChars, startsWithChars]

theorem hasSubChars_append_left (p s t : List Char)
    (h : hasSubChars p s = true) : hasSubChars p (s ++ t) = true := by
  induction s with
  | nil =>
      match p, h with
      | [], _ => exact hasSubChars_nil_pat t
  | cons b bs ih =>
      simp [hasSubChars] at h
      rcases h with h | h
      · exact hasSubChars_of_startsWith _ _
          (startsWithChars_extend p (b :: bs) t h)
      · simpa [hasSubChars] using Or.inr (ih h)

theorem hasSubChars_append_right (p s t : List Char)
    (h : hasSubChars p t = true) : hasSubChars p (s ++ t) = true := by
  induction s with
  | nil => exact h
  | cons b bs ih => simpa [hasSubChars] using Or.inr ih

theorem hasSubChars_refl (p : List Char) : hasSubChars p p = true :=
  hasSubChars_of_startsWith p p (startsWithChars_refl p)

theorem strContains_append_left (s t p : String)
    (h : strContains s p = true) : strContains (s ++ t) p = true := by
  unfold strContains at h ⊢
  rw [show (s ++ t).toList = s.toList ++ t.toList from String.data_append s t]
  exact hasSubChars_append_left _ _ _ h

theorem strContains_append_right (s t p : String)
    (h : strContains t p = true) : strContains (s ++ t) p = true := by
  unfold strContains at h ⊢
  rw [show (s ++ t).toList = s.toList ++ t.toList from String.data_append s t]
  exact hasSubChars_append_right _ _ _ h

theorem strContains_refl (p : String) : strContains p p = true :=
  hasSubChars_refl p.toList

theorem joinComma_contains (l : List String) (x p : String) (hx : x ∈ l)
    (hp : strContains x p = true) : strContains (joinComma l) p = true := by
  induction l with
  | nil => cases hx
  | cons y ys ih =>
      match ys, hx with
      | [], .head _ => simpa [joinComma] using hp
      | z :: zs, .head _ =>
          show strContains (x ++ "," ++ joinComma (z :: zs)) p = true
          exact strContains_append_left _ _ _
            (strContains_append_left _ _ _ hp)
      | z :: zs, .tail _ hmem =>
          show strContains (y ++ "," ++ joinComma (z :: zs)) p = true
          exact strContains_append_right _ _ _ (ih hmem)

/-! ## Helper lemmas: `readTokenCache` -/

theorem readTokenCache_ok_elim (cfg : Config) (cur out : JsRecord)
    (h : readTokenCache cfg (some cur) = .ok out) :
    out = cur ∧
    (∀ f ∈ requiredFields, jsTruthy ((getField cur f).getD "") = true) ∧
    ∃ e, getField cur "expiresAt" = some e ∧ (parseIsoDate e).isSome = true := by
  unfold readTokenCache at h
  dsimp only at h
  split at h
  · simp at h
  · rename_i hm
    have hfields : ∀ f ∈ requiredFields, jsTruthy ((getField cur f).getD "") = true := by
      simpa using hm
    split at h
    · rename_i e hgf
      split at h
      · rename_i hp
        cases h
        exact ⟨rfl, hfields, e, hgf, hp⟩
      · simp at h
    · simp at h

theorem readTokenCache_ok_intro (cfg : Config) (r : JsRecord) (e : String)
    (hfields : ∀ f ∈ requiredFields, jsTruthy ((getField r f).getD "") = true)
    (he : getField r "expiresAt" = some e)
    (hp : (parseIsoDate e).isSome = true) :
    readTokenCache cfg (some r) = .ok r := by
  unfold readTokenCache
  have hm : requiredFields.filter (fun f => !(jsTruthy ((getField r f).getD ""))) = [] :=
    List.filter_eq_nil_iff.mpr (fun f hf => by simp [hfields f hf])
  simp [hm, he, hp]

/-! ## Helper lemmas: the `writeTokenCache` merge -/

theorem writeTokenCacheMerge_getField (cur : JsRecord) (nt : NewTokens) :
    getField (writeTokenCacheMerge cur nt) "accessToken" = some nt.accessToken ∧
    getField (writeTokenCacheMerge cur nt) "expiresAt" = some nt.expiresAt ∧
    getField (writeTokenCacheMerge cur nt) "refreshToken" =
      (match nt.refreshToken with
       | some rt => if jsTruthy rt then some rt else getField cur "refreshToken"
       | none => getField cur "refreshToken") ∧
    (∀ k, k ≠ "accessToken" → k ≠ "expiresAt" → k ≠ "refreshToken" →
      getField (writeTokenCacheMerge cur nt) k = getField cur k) := by
  unfold writeTokenCacheMerge
  cases hrt : nt.refreshToken with
  | none =>
      dsimp only
      refine ⟨?_, ?_, ?_, ?_⟩
      · rw [getField_setField_ne _ _ _ _ (by decide), getField_setField_self]
      · rw [getField_setField_self]
      · rw [getField_setField_ne _ _ _ _ (by decide),
          getField_setField_ne _ _ _ _ (by decide)]
      · intro k h1 h2 _
        rw [getField_setField_ne _ _ _ _ h2, getField_setField_ne _ _ _ _ h1]
  | some rt =>
      dsimp only
      by_cases htr : jsTruthy rt = true
      · simp only [htr, if_true]
        refine ⟨?_, ?_, ?_, ?_⟩
        · rw [getField_setField_ne _ _ _ _ (by decide),
            getField_setField_ne _ _ _ _ (by decide), getField_setField_self]
        · rw [getField_setField_ne _ _ _ _ (by decide), getField_setField_self]
        · rw [getField_setField_self]
        · intro k h1 h2 h3
          rw [getField_setField_ne _ _ _ _ h3, getField_setField_ne _ _ _ _ h2,
            getField_setField_ne _ _ _ _ h1]
      · rw [if_neg htr]
        refine ⟨?_, ?_, ?_, ?_⟩
        · rw [getField_setField_ne _ _ _ _ (by decide), getField_setField_self]
        · rw [getField_setField_self]
        · rw [if_neg htr, getField_setField_ne _ _ _ _ (by decide),
            getField_setField_ne _ _ _ _ (by decide)]
        · intro k h1 h2 _
          rw [getField_setField_ne _ _ _ _ h2, getField_setField_ne _ _ _ _ h1]

/-! ## Concrete sample data (used by witnesses and counterexamples) -/

/-- A representative validated configuration. -/
def sampleConfig : Config :=
  { refreshThreshold := 300000
    maxRetryAttempts := 3
    retryBackoffSeconds := 10
    awsSsoProfile := "test-profile"
    oidcEndpoint := "https://oidc.ca-central-1.amazonaws.com/token" }

/-- A representative readable cache record, including vendor passthrough
fields. -/
def sampleCache : JsRecord :=
  [("accessToken", "tokA"), ("refreshToken", "tokR"), ("clientId", "cid"),
   ("clientSecret", "csec"), ("expiresAt", "2026-01-24T14:30:00Z"),
   ("region", "ca-central-1"), ("startUrl", "https://example.awsapps.com/start")]

/-! ## C1 -/

/-- C1 (amended): for every readable cache record and every `newTokens` with
a non-empty `accessToken` and a parseable `expiresAt`, write followed by
read round-trips: the merged record is read back unchanged, `accessToken`
and `expiresAt` take the new values, `refreshToken` takes the new value
exactly when the field is present *and non-empty* (JS truthiness), keeping
the pre-write value otherwise, and every other field is preserved. -/
theorem writeTokenCache_roundTrip (cfg : Config) (cur : JsRecord) (nt : NewTokens)
    (hread : readTokenCache cfg (some cur) = .ok cur)
    (hacc : nt.accessToken ≠ "")
    (hexp : (parseIsoDate nt.expiresAt).isSome = true) :
    writeTokenCache (some cur) nt = .ok (writeTokenCacheMerge cur nt) ∧
    readTokenCache cfg (some (writeTokenCacheMerge cur nt)) =
      .ok (writeTokenCacheMerge cur nt) ∧
    getField (writeTokenCacheMerge cur nt) "accessToken" = some nt.accessToken ∧
    getField (writeTokenCacheMerge cur nt) "expiresAt" = some nt.expiresAt ∧
    (∀ rt, nt.refreshToken = some rt → rt ≠ "" →
      getField (writeTokenCacheMerge cur nt) "refreshToken" = some rt) ∧
    ((nt.refreshToken = none ∨ nt.refreshToken = some "") →
      getField (writeTokenCacheMerge cur nt) "refreshToken" =
        getField cur "refreshToken") ∧
    (∀ k, k ≠ "accessToken" → k ≠ "expiresAt" → k ≠ "refreshToken" →
      getField (writeTokenCacheMerge cur nt) k = getField cur k) := by
  obtain ⟨-, hfields, e, he, hp⟩ := readTokenCache_ok_elim cfg cur cur hread
  obtain ⟨hAcc, hExp, hRt, hFrame⟩ := writeTokenCacheMerge_getField cur nt
  have hExpNe : nt.expiresAt ≠ "" := by
    intro hh
    rw [hh] at hexp
    exact absurd hexp (by decide)
  have hRtNew : ∀ rt, nt.refreshToken = some rt → rt ≠ "" →
      getField (writeTokenCacheMerge cur nt) "refreshToken" = some rt := by
    intro rt hr hne
    rw [hRt, hr]
    simp [jsTruthy, hne]
  have hRtOld : (nt.refreshToken = none ∨ nt.refreshToken = some "") →
      getField (writeTokenCacheMerge cur nt) "refreshToken" =
        getField cur "refreshToken" := by
    rintro (hr | hr) <;> rw [hRt, hr]
    simp [jsTruthy]
  have hReadBack : readTokenCache cfg (some (writeTokenCacheMerge cur nt)) =
      .ok (writeTokenCacheMerge cur nt) := by
    apply readTokenCache_ok_intro cfg _ nt.expiresAt _ hExp hexp
    intro f hf
    have hf5 : f = "accessToken" ∨ f = "refreshToken" ∨ f = "clientId" ∨
        f = "clientSecret" ∨ f = "expiresAt" := by
      simpa [requiredFields] using hf
    rcases hf5 with rfl | rfl | rfl | rfl | rfl
    · rw [hAcc]; simpa [jsTruthy] using hacc
    · rw [hRt]
      cases hrt : nt.refreshToken with
      | none =>
          have := hfields "refreshToken" (by simp [requiredFields])
          simpa using this
      | some rt =>
          by_cases htr : jsTruthy rt = true
          · simp [htr]
          · have := hfields "refreshToken" (by simp [requiredFields])
            simpa [htr] using this
    · rw [hFrame "clientId" (by decide) (by decide) (by decide)]
      exact hfields "clientId" (by simp [requiredFields])
    · rw [hFrame "clientSecret" (by decide) (by decide) (by decide)]
      exact hfields "clientSecret" (by simp [requiredFields])
    · rw [hExp]; simpa [jsTruthy] using hExpNe
  exact ⟨rfl, hReadBack, hAcc, hExp, hRtNew, hRtOld, hFrame⟩

/-- C1 counterexample: the claim as stated fails when `newTokens` contains
the `refreshToken` field with an empty-string value: the field is *present*,
but the JS truthiness guard skips the update, so the read-back record keeps
the pre-write `refreshToken` (`"tokR"`) instead of the new value (`""`). -/
theorem writeTokenCache_emptyRefreshToken_cex :
    readTokenCache sampleConfig (some sampleCache) = .ok sampleCache ∧
    writeTokenCache (some sampleCache)
        { accessToken := "tokB", expiresAt := "2026-01-24T15:30:00Z",
          refreshToken := some "" } =
      .ok (writeTokenCacheMerge sampleCache
        { accessToken := "tokB", expiresAt := "2026-01-24T15:30:00Z",
          refreshToken := some "" }) ∧
    getField (writeTokenCacheMerge sampleCache
        { accessToken := "tokB", expiresAt := "2026-01-24T15:30:00Z",
          refreshToken := some "" }) "refreshToken" = some "tokR" ∧
    some "tokR" ≠ some ("" : String) := by
  refine ⟨by decide, rfl, by decide, by decide⟩

/-- C1 witness: the amended round-trip theorem applied to the sample record
with a rotated (non-empty) refresh token. -/
theorem writeTokenCache_roundTrip_witness :
    getField (writeTokenCacheMerge sampleCache
        { accessToken := "tokB", expiresAt := "2026-01-24T15:30:00Z",
          refreshToken := some "tokR2" }) "refreshToken" = some "tokR2" :=
  (writeTokenCache_roundTrip sampleConfig sampleCache
      { accessToken := "tokB", expiresAt := "2026-01-24T15:30:00Z",
        refreshToken := some "tokR2" }
      (by decide) (by decide) (by decide)).2.2.2.2.1 "tokR2" rfl (by decide)

/-! ## Helper lemmas: the retry loop -/

theorem range_map_shift (f : Nat → Nat) (k : Nat) :
    (List.range (k + 1)).map f = f 0 :: (List.range k).map (fun j => f (j + 1)) := by
  rw [List.range_succ_eq_map, List.map_cons, List.map_map]
  rfl

theorem retryableErr_elim (a : AttemptResult) (h : retryableErr a = true) :
    ∃ m, a = .err m ∧ isNonRetryable m = false := by
  cases a with
  | ok _ => simp [retryableErr] at h
  | err m => exact ⟨m, rfl, by simpa [retryableErr] using h⟩

theorem retryGo_success (o : Nat → AttemptResult) (b : Nat) :
    ∀ (k a r : Nat) (le : Option String) (t : TokenData),
      k < r →
      (∀ j, j < k → retryableErr (o (a + j)) = true) →
      o (a + k) = .ok t →
      retryGo o b a r le =
        { result := .ok t, attempts := k + 1,
          waitsMs := (List.range k).map (fun j => b * (a + j) * 1000) } := by
  intro k
  induction k with
  | zero =>
      intro a r le t hk _ ho
      match r, hk with
      | r' + 1, _ =>
          unfold retryGo
          simp only [Nat.add_zero] at ho
          rw [ho]
          rfl
  | succ k ih =>
      intro a r le t hk hretry ho
      match r, hk with
      | r' + 1, _ =>
          have h0 : retryableErr (o a) = true := by
            have := hretry 0 (Nat.succ_pos k)
            simpa using this
          obtain ⟨m, hm, hnr⟩ := retryableErr_elim _ h0
          have hr' : ¬(r' = 0) := by omega
          unfold retryGo
          rw [hm]
          simp only [hnr, Bool.false_eq_true, if_false, if_neg hr']
          rw [ih (a + 1) r' (some m) t (by omega)
            (fun j hj => by
              have := hretry (j + 1) (by omega)
              rwa [show a + (j + 1) = a + 1 + j by omega] at this)
            (by rwa [show a + 1 + k = a + (k + 1) by omega])]
          have hfe : (fun j => b * (a + (j + 1)) * 1000)
              = (fun j => b * (a + 1 + j) * 1000) :=
            funext (fun j => by rw [show a + (j + 1) = a + 1 + j by omega])
          have hw : (List.range (k + 1)).map (fun j => b * (a + j) * 1000)
              = b * a * 1000 :: (List.range k).map (fun j => b * (a + 1 + j) * 1000) := by
            calc (List.range (k + 1)).map (fun j => b * (a + j) * 1000)
                = b * (a + 0) * 1000 ::
                    (List.range k).map (fun j => b * (a + (j + 1)) * 1000) :=
                  range_map_shift _ k
              _ = b * a * 1000 ::
                    (List.range k).map (fun j => b * (a + 1 + j) * 1000) := by
                  rw [Nat.add_zero, hfe]
          rw [hw]

theorem retryGo_fatal (o : Nat → AttemptResult) (b : Nat) :
    ∀ (k a r : Nat) (le : Option String) (m : String),
      k < r →
      (∀ j, j < k → retryableErr (o (a + j)) = true) →
      o (a + k) = .err m → isNonRetryable m = true →
      retryGo o b a r le =
        { result := .error (some m), attempts := k + 1,
          waitsMs := (List.range k).map (fun j => b * (a + j) * 1000) } := by
  intro k
  induction k with
  | zero =>
      intro a r le m hk _ ho hm
      match r, hk with
      | r' + 1, _ =>
          unfold retryGo
          simp only [Nat.add_zero] at ho
          rw [ho]
          simp [hm]
  | succ k ih =>
      intro a r le m hk hretry ho hm
      match r, hk with
      | r' + 1, _ =>
          have h0 : retryableErr (o a) = true := by
            have := hretry 0 (Nat.succ_pos k)
            simpa using this
          obtain ⟨m0, hm0, hnr0⟩ := retryableErr_elim _ h0
          have hr' : ¬(r' = 0) := by omega
          unfold retryGo
          rw [hm0]
          simp only [hnr0, Bool.false_eq_true, if_false, if_neg hr']
          rw [ih (a + 1) r' (some m0) m (by omega)
            (fun j hj => by
              have := hretry (j + 1) (by omega)
              rwa [show a + (j + 1) = a + 1 + j by omega] at this)
            (by rwa [show a + 1 + k = a + (k + 1) by omega]) hm]
          have hfe : (fun j => b * (a + (j + 1)) * 1000)
              = (fun j => b * (a + 1 + j) * 1000) :=
            funext (fun j => by rw [show a + (j + 1) = a + 1 + j by omega])
          have hw : (List.range (k + 1)).map (fun j => b * (a + j) * 1000)
              = b * a * 1000 :: (List.range k).map (fun j => b * (a + 1 + j) * 1000) := by
            calc (List.range (k + 1)).map (fun j => b * (a + j) * 1000)
                = b * (a + 0) * 1000 ::
                    (List.range k).map (fun j => b * (a + (j + 1)) * 1000) :=
                  range_map_shift _ k
              _ = b * a * 1000 ::
                    (List.range k).map (fun j => b * (a + 1 + j) * 1000) := by
                  rw [Nat.add_zero, hfe]
          rw [hw]

theorem retryGo_exhaust (o : Nat → AttemptResult) (b : Nat) :
    ∀ (r a : Nat) (le : Option String) (ms : Nat → String),
      1 ≤ r →
      (∀ j, j < r → o (a + j) = .err (ms j) ∧ isNonRetryable (ms j) = false) →
      retryGo o b a r le =
        { result := .error (some (ms (r - 1))), attempts := r,
          waitsMs := (List.range (r - 1)).map (fun j => b * (a + j) * 1000) } := by
  intro r
  induction r with
  | zero => intro a le ms h; omega
  | succ r' ih =>
      intro a le ms hr hall
      obtain ⟨h0, hnr0⟩ := hall 0 (by omega)
      rw [Nat.add_zero] at h0
      unfold retryGo
      rw [h0]
      simp only [hnr0, Bool.false_eq_true, if_false]
      by_cases hr0 : r' = 0
      · subst hr0
        simp
  -- the last attempt also failed: the loop exits and throws the last error
      · rw [if_neg hr0]
        rw [ih (a + 1) (some (ms 0)) (fun j => ms (j + 1)) (by omega)
          (fun j hj => by
            have := hall (j + 1) (by omega)
            rwa [show a + (j + 1) = a + 1 + j by omega] at this)]
        have hms : ms (r' - 1 + 1) = ms (Nat.succ r' - 1) := by
          rw [show r' - 1 + 1 = r' by omega]
          rfl
        have hfe : (fun j => b * (a + (j + 1)) * 1000)
            = (fun j => b * (a + 1 + j) * 1000) :=
          funext (fun j => by rw [show a + (j + 1) = a + 1 + j by omega])
        have hw : (List.range (Nat.succ r' - 1)).map (fun j => b * (a + j) * 1000)
            = b * a * 1000 :: (List.range (r' - 1)).map (fun j => b * (a + 1 + j) * 1000) := by
          rw [show Nat.succ r' - 1 = (r' - 1) + 1 by omega]
          calc (List.range ((r' - 1) + 1)).map (fun j => b * (a + j) * 1000)
              = b * (a + 0) * 1000 ::
                  (List.range (r' - 1)).map (fun j => b * (a + (j + 1)) * 1000) :=
                range_map_shift _ (r' - 1)
            _ = b * a * 1000 ::
                  (List.range (r' - 1)).map (fun j => b * (a + 1 + j) * 1000) := by
                rw [Nat.add_zero, hfe]
        rw [hms, hw]

/-! ## C3 -/

/-- C3: `refreshTokenWithRetry` over `maxAttempts = N ≥ 1`:
(1) after any run of retryable failures, the first successful attempt's
result is returned, with `attempt * retryBackoffSeconds` seconds slept
before each retry (attempts are 1-based);
(2) a non-retryable (fatal) failure stops the loop immediately and rejects
with that error, regardless of remaining attempts;
(3) N retryable failures perform exactly N attempts and reject with the
last error. -/
theorem refreshTokenWithRetry_spec (o : Nat → AttemptResult) (b N : Nat)
    (hN : 1 ≤ N) :
    (∀ k t, 1 ≤ k → k ≤ N →
      (∀ j, 1 ≤ j → j < k → retryableErr (o j) = true) → o k = .ok t →
      refreshTokenWithRetry o b (N : Int) =
        { result := .ok t, attempts := k,
          waitsMs := (List.range (k - 1)).map (fun j => b * (1 + j) * 1000) }) ∧
    (∀ k m, 1 ≤ k → k ≤ N →
      (∀ j, 1 ≤ j → j < k → retryableErr (o j) = true) →
      o k = .err m → isNonRetryable m = true →
      refreshTokenWithRetry o b (N : Int) =
        { result := .error (some m), attempts := k,
          waitsMs := (List.range (k - 1)).map (fun j => b * (1 + j) * 1000) }) ∧
    (∀ ms : Nat → String,
      (∀ j, 1 ≤ j → j ≤ N → o j = .err (ms j) ∧ isNonRetryable (ms j) = false) →
      refreshTokenWithRetry o b (N : Int) =
        { result := .error (some (ms N)), attempts := N,
          waitsMs := (List.range (N - 1)).map (fun j => b * (1 + j) * 1000) }) := by
  refine ⟨?_, ?_, ?_⟩
  · intro k t hk1 hkN hretry ho
    unfold refreshTokenWithRetry
    rw [Int.toNat_natCast]
    have h := retryGo_success o b (k - 1) 1 N none t (by omega)
      (fun j hj => hretry (1 + j) (by omega) (by omega))
      (by rwa [show 1 + (k - 1) = k by omega])
    rw [h, show k - 1 + 1 = k by omega]
  · intro k m hk1 hkN hretry ho hm
    unfold refreshTokenWithRetry
    rw [Int.toNat_natCast]
    have h := retryGo_fatal o b (k - 1) 1 N none m (by omega)
      (fun j hj => hretry (1 + j) (by omega) (by omega))
      (by rwa [show 1 + (k - 1) = k by omega]) hm
    rw [h, show k - 1 + 1 = k by omega]
  · intro ms hall
    unfold refreshTokenWithRetry
    rw [Int.toNat_natCast]
    have h := retryGo_exhaust o b N 1 none (fun j => ms (1 + j)) hN
      (fun j hj => by
        have := hall (1 + j) (by omega) (by omega)
        exact ⟨this.1, this.2⟩)
    have hbeta : (fun j => ms (1 + j)) (N - 1) = ms N := by
      show ms (1 + (N - 1)) = ms N
      rw [show 1 + (N - 1) = N by omega]
    rw [h, hbeta]

/-- Outcomes for the C3 witness: the first attempt times out (retryable),
the second succeeds. -/
def witnessOutcomes : Nat → AttemptResult := fun i =>
  if i = 2 then
    .ok { accessToken := "newTok", refreshToken := "newR",
          expiresAt := "2026-01-24T15:30:00.000Z", expiresIn := 3600 }
  else
    .err "Request timeout: OIDC endpoint at e did not respond in time."

/-- C3 witness: one retryable failure then a success with `maxAttempts = 3`
performs exactly 2 attempts, sleeps 10 s once, and returns the success. -/
theorem refreshTokenWithRetry_spec_witness :
    refreshTokenWithRetry witnessOutcomes 10 (3 : Int) =
      { result := .ok { accessToken := "newTok", refreshToken := "newR",
                        expiresAt := "2026-01-24T15:30:00.000Z", expiresIn := 3600 }
        attempts := 2, waitsMs := [10000] } := by
  have h := (refreshTokenWithRetry_spec witnessOutcomes 10 3 (by decide)).1 2
    { accessToken := "newTok", refreshToken := "newR",
      expiresAt := "2026-01-24T15:30:00.000Z", expiresIn := 3600 }
    (by decide) (by decide)
    (fun j h1 h2 => by
      have hj : j = 1 := by omega
      subst hj
      decide)
    (by decide)
  simpa using h

/-! ## C10 -/

/-- C10: for every `maxAttempts < 1`, the attempt loop never executes, so
`refreshTokenWithRetry` performs no exchange attempts and rejects with the
never-assigned `lastError`, i.e. `undefined` (modelled `Except.error none`)
rather than an `Error`. -/
theorem refreshTokenWithRetry_nonpositive (o : Nat → AttemptResult) (b : Nat)
    (N : Int) (hN : N < 1) :
    refreshTokenWithRetry o b N =
      { result := .error none, attempts := 0, waitsMs := [] } := by
  unfold refreshTokenWithRetry
  rw [Int.toNat_of_nonpos (by omega)]
  rfl

/-- C10 witness: `maxAttempts = 0` with outcomes that would always fail. -/
theorem refreshTokenWithRetry_nonpositive_witness :
    refreshTokenWithRetry (fun _ => .err "boom") 10 (0 : Int) =
      { result := .error none, attempts := 0, waitsMs := [] } :=
  refreshTokenWithRetry_nonpositive (fun _ => .err "boom") 10 0 (by decide)

/-! ## C4 -/

/-- The error `refreshToken` rejects with when a successful response lacks
`accessToken` or `expiresIn` (the validation throw, re-wrapped by the
unknown-error fallthrough of the `catch` block). -/
def oidcInvalidResponseMessage : String :=
  "Token refresh failed: Invalid response from OIDC endpoint: missing accessToken or expiresIn"

/-- C4 (amended): a successful HTTP response lacking `accessToken` or
lacking `expiresIn` makes `refreshToken` reject with a validation error —
but that message matches none of the non-retryable patterns, so
`refreshTokenWithRetry` treats it as retryable: with `maxAttempts = N` it
performs exactly N attempts (not 1) before rejecting with it. -/
theorem refreshToken_missingFields_spec (cfg : Config) (cred : String)
    (now : Int) (acc rt : Option String) (expIn : Option Int) (b N : Nat)
    (hmiss : acc = none ∨ expIn = none) (hN : 1 ≤ N) :
    refreshToken cfg cred now (.ok acc rt expIn) =
      .error oidcInvalidResponseMessage ∧
    isNonRetryable oidcInvalidResponseMessage = false ∧
    refreshTokenWithRetry (fun _ => .err oidcInvalidResponseMessage) b (N : Int) =
      { result := .error (some oidcInvalidResponseMessage), attempts := N,
        waitsMs := (List.range (N - 1)).map (fun j => b * (1 + j) * 1000) } := by
  refine ⟨?_, by decide, ?_⟩
  · rcases hmiss with rfl | rfl
    · simp [refreshToken, jsTruthy, oidcInvalidResponseMessage]
    · simp [refreshToken, jsTruthy, oidcInvalidResponseMessage]
  · unfold refreshTokenWithRetry
    rw [Int.toNat_natCast]
    have h := retryGo_exhaust (fun _ => .err oidcInvalidResponseMessage) b N 1
      none (fun _ => oidcInvalidResponseMessage) hN
      (fun j hj =>
        ⟨rfl, by show isNonRetryable oidcInvalidResponseMessage = false; decide⟩)
    rw [h]

/-- C4 counterexample: for a success response lacking `expiresIn`, with
`maxAttempts = 3`, the retry loop performs 3 attempts — not the 1 attempt
the claim requires. -/
theorem refreshToken_missingFields_cex :
    refreshToken sampleConfig "tokR" 0 (.ok (some "x") none none) =
      .error oidcInvalidResponseMessage ∧
    isNonRetryable oidcInvalidResponseMessage = false ∧
    (refreshTokenWithRetry (fun _ => .err oidcInvalidResponseMessage) 10
      (3 : Int)).attempts = 3 := by
  refine ⟨rfl, by decide, by decide⟩

/-- C4 witness: the amended theorem applied at a concrete missing-`expiresIn`
response with `maxAttempts = 2`. -/
theorem refreshToken_missingFields_spec_witness :
    refreshToken sampleConfig "tokR" 0 (.ok (some "x") none none) =
      .error oidcInvalidResponseMessage ∧
    refreshTokenWithRetry (fun _ => .err oidcInvalidResponseMessage) 10
      (2 : Int) =
      { result := .error (some oidcInvalidResponseMessage), attempts := 2,
        waitsMs := [10000] } := by
  have h := refreshToken_missingFields_spec sampleConfig "tokR" 0 (some "x")
    none none 10 2 (Or.inr rfl) (by decide)
  exact ⟨h.1, by simpa using h.2.2⟩

/-! ## C5 -/

/-- C5 (amended): for every error rendered from an HTTP error payload (the
branch that is not invalid-grant and not 401), every *top-level* field whose
name is exactly one of the fixed `sensitiveFields` list is replaced by
`[REDACTED]` before rendering, so the propagated message contains the
`[REDACTED]` marker and the sanitized payload maps every sensitive field to
`[REDACTED]`.  (The original value can still appear in the message when it
also occurs under a non-sensitive field, and fields merely *named like* a
token but not in the fixed list — e.g. `idToken` — or nested fields are not
redacted.) -/
theorem sanitizeApiResponse_spec (cfg : Config) (cred : String) (now : Int)
    (status : Nat) (data : JsRecord) (k v : String)
    (hmem : (k, v) ∈ data) (hsens : k ∈ sensitiveFields)
    (hng : ¬(status = 400 ∧ getField data "error" = some "invalid_grant"))
    (h401 : status ≠ 401) :
    refreshToken cfg cred now (.httpError status data) =
      .error ("OIDC API error (" ++ toString status ++ "): " ++
        stringifyJson (sanitizeApiResponse data)) ∧
    strContains ("OIDC API error (" ++ toString status ++ "): " ++
      stringifyJson (sanitizeApiResponse data)) "[REDACTED]" = true ∧
    (∀ kv ∈ sanitizeApiResponse data, kv.1 ∈ sensitiveFields →
      kv.2 = "[REDACTED]") := by
  refine ⟨?_, ?_, ?_⟩
  · simp [refreshToken, hng, h401]
  · have hpair : (k, "[REDACTED]") ∈ sanitizeApiResponse data := by
      have := List.mem_map_of_mem
        (fun kv : String × String =>
          if kv.1 ∈ sensitiveFields then (kv.1, "[REDACTED]") else kv) hmem
      simpa [sanitizeApiResponse, hsens] using this
    have hjson : jsonPair (k, "[REDACTED]") ∈ (sanitizeApiResponse data).map jsonPair :=
      List.mem_map_of_mem jsonPair hpair
    have hinner : strContains (jsonPair (k, "[REDACTED]")) "[REDACTED]" = true := by
      show strContains ("\"" ++ k ++ "\":\"" ++ "[REDACTED]" ++ "\"") "[REDACTED]" = true
      exact strContains_append_left _ _ _
        (strContains_append_right _ _ _ (strContains_refl "[REDACTED]"))
    have hjoin : strContains (joinComma ((sanitizeApiResponse data).map jsonPair))
        "[REDACTED]" = true :=
      joinComma_contains _ _ _ hjson hinner
    show strContains ("OIDC API error (" ++ toString status ++ "): " ++
      ("\x7b" ++ joinComma ((sanitizeApiResponse data).map jsonPair) ++ "\x7d"))
      "[REDACTED]" = true
    exact strContains_append_right _ _ _
      (strContains_append_left _ _ _ (strContains_append_right _ _ _ hjoin))
  · intro kv hkv hks
    simp only [sanitizeApiResponse, List.mem_map] at hkv
    obtain ⟨kv', -, hf⟩ := hkv
    by_cases hs : kv'.1 ∈ sensitiveFields
    · rw [if_pos hs] at hf
      rw [← hf]
    · rw [if_neg hs] at hf
      rw [← hf] at hks
      exact absurd hks hs

/-- C5 counterexample: the claim's "never contains the original value" fails
when the same value also appears under a non-sensitive field: the payload's
`accessToken` (a claimed example) has value `SECRETVAL`, and the rendered
message still contains `SECRETVAL` (via `error_description`). -/
theorem sanitizeApiResponse_cex :
    refreshToken sampleConfig "tokR" 0 (.httpError 500
        [("accessToken", "SECRETVAL"), ("error_description", "SECRETVAL")]) =
      .error "OIDC API error (500): \x7b\"accessToken\":\"[REDACTED]\",\"error_description\":\"SECRETVAL\"\x7d" ∧
    strContains
      "OIDC API error (500): \x7b\"accessToken\":\"[REDACTED]\",\"error_description\":\"SECRETVAL\"\x7d"
      "SECRETVAL" = true := by
  exact ⟨rfl, by decide⟩

/-- C5 witness: the amended theorem applied to a 500 payload carrying a
`clientSecret` field. -/
theorem sanitizeApiResponse_spec_witness :
    strContains ("OIDC API error (" ++ toString (500 : Nat) ++ "): " ++
      stringifyJson (sanitizeApiResponse
        [("clientSecret", "s3cr3t"), ("error", "server_error")]))
      "[REDACTED]" = true :=
  (sanitizeApiResponse_spec sampleConfig "tokR" 0 500
    [("clientSecret", "s3cr3t"), ("error", "server_error")]
    "clientSecret" "s3cr3t" (by decide) (by decide) (by decide) (by decide)).2.1

/-! ## C7 -/

/-- C7: for every valid `expiresAt` (with parsed expiry `tExp`) and positive
configured threshold, `shouldRefresh` is true iff
`getTimeUntilExpiry ≤ refreshThreshold`; the boundary is inclusive (exactly
the threshold in the future yields true); and every already-past `expiresAt`
yields a negative `getTimeUntilExpiry` and `shouldRefresh` true. -/
theorem shouldRefresh_spec (cfg : Config) (e : String) (now tExp : Int)
    (hparse : parseIsoDate e = some tExp) (hth : 0 < cfg.refreshThreshold) :
    getTimeUntilExpiry e now = .ok (tExp - now) ∧
    (shouldRefresh cfg e now = .ok true ↔ tExp - now ≤ cfg.refreshThreshold) ∧
    (tExp - now = cfg.refreshThreshold → shouldRefresh cfg e now = .ok true) ∧
    (tExp < now → tExp - now < 0 ∧ shouldRefresh cfg e now = .ok true) := by
  have hg : getTimeUntilExpiry e now = .ok (tExp - now) := by
    simp [getTimeUntilExpiry, hparse]
  refine ⟨hg, ?_, ?_, ?_⟩
  · simp [shouldRefresh, hg]
  · intro hb
    simp [shouldRefresh, hg, hb]
  · intro hlt
    refine ⟨by omega, ?_⟩
    simp only [shouldRefresh, hg]
    simp
    omega

/-- C7 witness: an `expiresAt` exactly `refreshThreshold` (5 minutes) in the
future is due. -/
theorem shouldRefresh_spec_witness :
    shouldRefresh sampleConfig "2026-01-24T14:30:00Z" 1769264700000 = .ok true :=
  (shouldRefresh_spec sampleConfig "2026-01-24T14:30:00Z" 1769264700000
    1769265000000 (by decide) (by decide)).2.2.1 (by decide)

/-! ## C9 -/

/-- C9: `getTokenStatus` never throws: it is a total function whose result
on any read failure is `{ error, expired: true, needsRefresh: true }`, and
on success carries `expiresAt`, `timeUntilExpiry`, `expired`, `needsRefresh`
and the formatted remaining time. -/
theorem getTokenStatus_spec (cfg : Config) (file : Option JsRecord) (now : Int) :
    (∀ msg, readTokenCache cfg file = .error msg →
      getTokenStatus cfg file now =
        { error := some msg, expired := true, needsRefresh := true }) ∧
    (∀ cache, readTokenCache cfg file = .ok cache →
      ∃ e tExp f, getField cache "expiresAt" = some e ∧
        parseIsoDate e = some tExp ∧
        getTimeUntilExpiry e now = .ok (tExp - now) ∧
        formatTimeRemaining e now = .ok f ∧
        getTokenStatus cfg file now =
          { expiresAt := some e, timeUntilExpiry := some (tExp - now),
            expired := decide (tExp - now ≤ 0),
            needsRefresh := decide (tExp - now ≤ cfg.refreshThreshold),
            formattedTimeRemaining := some f, error := none }) := by
  constructor
  · intro msg h
    simp [getTokenStatus, h]
  · intro cache h
    match file with
    | none => simp [readTokenCache] at h
    | some cur =>
        obtain ⟨rfl, -, e, he, hpsome⟩ := readTokenCache_ok_elim cfg cur cache h
        obtain ⟨tExp, hparse⟩ := Option.isSome_iff_exists.mp hpsome
        refine ⟨e, tExp,
          (if 0 < jsFloorDiv (jsFloorDiv (tExp - now) 60000) 60 then
            toString (jsFloorDiv (jsFloorDiv (tExp - now) 60000) 60) ++ "h " ++
              toString (jsFloorDiv (tExp - now) 60000 % 60) ++ "m"
          else
            toString (jsFloorDiv (tExp - now) 60000) ++ "m"),
          he, hparse, ?_, ?_, ?_⟩
        · simp [getTimeUntilExpiry, hparse]
        · simp only [formatTimeRemaining, getTimeUntilExpiry, hparse]
          split <;> rfl
        · simp [getTokenStatus, h, he, hparse]

/-- C9 witness: a missing cache file yields the flagged error object. -/
theorem getTokenStatus_spec_witness :
    getTokenStatus sampleConfig none 0 =
      { error := some ("Cache file not found\nPlease run: aws sso login --profile test-profile")
        expired := true, needsRefresh := true } :=
  (getTokenStatus_spec sampleConfig none 0).1
    "Cache file not found\nPlease run: aws sso login --profile test-profile" rfl

/-! ## C2 -/

/-- C2: during an atomic write, a reader of the final path only ever
observes the old or the new full content (never a partial write); if the
process is interrupted after the temporary file is created but before the
rename, the final path still holds the previous fully-written content, on
which `readTokenCache` behaves exactly as before the write started. -/
theorem atomicWrite_spec (oldContent newContent : String) :
    (∀ s, writeReachable oldContent newContent s →
      s.finalContent = oldContent ∨ s.finalContent = newContent) ∧
    (∀ s, writeInterrupted oldContent newContent s →
      s.finalContent = oldContent) ∧
    (∀ (cfg : Config) (decode : String → Option JsRecord) (s : FsState),
      writeInterrupted oldContent newContent s →
      readTokenCache cfg (decode s.finalContent) =
        readTokenCache cfg (decode oldContent)) := by
  have hold : ∀ s, writeInterrupted oldContent newContent s →
      s.finalContent = oldContent := by
    intro s h
    induction h with
    | refl => rfl
    | tail h' step ih =>
        obtain ⟨st, hne⟩ := step
        cases st with
        | writeTemp c hpre => simpa using ih
        | rename htemp => simp at hne
  refine ⟨?_, hold, fun cfg decode s h => by rw [hold s h]⟩
  intro s h
  induction h with
  | refl => exact Or.inl rfl
  | tail h' step ih =>
      cases step with
      | writeTemp c hpre => simpa using ih
      | rename htemp => exact Or.inr rfl

/-- C2 witness: a state where the temporary file holds a strict partial
write (`"ne"` of `"new"`) is reachable without the rename, and the final
path still holds the old content. -/
theorem atomicWrite_spec_witness :
    ({ finalContent := "old", tempContent := some "ne" } : FsState).finalContent
      = "old" :=
  (atomicWrite_spec "old" "new").2.1
    { finalContent := "old", tempContent := some "ne" }
    (Relation.ReflTransGen.single
      ⟨WriteStep.writeTemp { finalContent := "old", tempContent := none } "ne"
        (by decide), by simp⟩)

/-! ## Helper lemmas: the scheduler cycle -/

/-- `lowerChars` distributes over string append. -/
theorem lowerChars_append (s t : String) :
    lowerChars (s ++ t).toList = lowerChars s.toList ++ lowerChars t.toList := by
  unfold lowerChars
  rw [show (s ++ t).toList = s.toList ++ t.toList from String.data_append s t,
    List.map_append]

/-- A cycle in which the token is due and the retry loop rejects with a
message reduces to the shared `catch` block. -/
theorem refreshTokenIfNeeded_dueFailure (cfg : Config) (now : Int)
    (o : Nat → AttemptResult) (st : DaemonState) (cache : JsRecord)
    (e : String) (tExp : Int) (msg : String)
    (hsd : st.isShuttingDown = false)
    (hread : readTokenCache cfg st.file = .ok cache)
    (he : getField cache "expiresAt" = some e)
    (ht : parseIsoDate e = some tExp)
    (hdue : tExp - now ≤ cfg.refreshThreshold)
    (htrace : (refreshTokenWithRetry o cfg.retryBackoffSeconds
      cfg.maxRetryAttempts).result = .error (some msg)) :
    refreshTokenIfNeeded cfg now o st =
      some (cycleFailure st msg
        (if jsRoundDiv (tExp - now) 60000 ≤ EXPIRY_WARNING_THRESHOLD_MINUTES then
          [Notification.expiringSoon (jsRoundDiv (tExp - now) 60000)]
        else [])
        (refreshTokenWithRetry o cfg.retryBackoffSeconds
          cfg.maxRetryAttempts).attempts) := by
  unfold refreshTokenIfNeeded
  rw [hsd]
  simp only [Bool.false_eq_true, if_false]
  rw [hread]
  dsimp only
  rw [he]
  simp only [Option.getD_some]
  rw [ht]
  dsimp only
  rw [if_neg (not_not_intro hdue)]
  rw [htrace]

/-- The fatal invalid-grant message always contains the
`'invalid or expired'` pattern, both for the cycle's case-sensitive check
and for the retry loop's lowercased check. -/
theorem invalidGrantMessage_matches (cfg : Config) :
    strContains (getReloginErrorMessage cfg "Refresh token is invalid or expired")
      "invalid or expired" = true ∧
    isNonRetryable (getReloginErrorMessage cfg "Refresh token is invalid or expired")
      = true := by
  constructor
  · show strContains ("Refresh token is invalid or expired" ++ "\nPlease run: "
      ++ getLoginCommand cfg) "invalid or expired" = true
    exact strContains_append_left _ _ _
      (strContains_append_left _ _ _ (by decide))
  · apply List.any_eq_true.mpr
    refine ⟨"invalid or expired", by decide, ?_⟩
    show hasSubChars (lowerChars "invalid or expired".toList)
      (lowerChars (("Refresh token is invalid or expired" ++ "\nPlease run: ")
        ++ getLoginCommand cfg).toList) = true
    rw [lowerChars_append, lowerChars_append]
    exact hasSubChars_append_left _ _ _
      (hasSubChars_append_left _ _ _ (by decide))

/-- The fatal invalid-credentials message always matches the retry loop's
`'credentials are invalid'` pattern. -/
theorem invalidClientMessage_matches (cfg : Config) :
    isNonRetryable (getReloginErrorMessage cfg "Client credentials are invalid")
      = true := by
  apply List.any_eq_true.mpr
  refine ⟨"credentials are invalid", by decide, ?_⟩
  show hasSubChars (lowerChars "credentials are invalid".toList)
    (lowerChars (("Client credentials are invalid" ++ "\nPlease run: ")
      ++ getLoginCommand cfg).toList) = true
  rw [lowerChars_append, lowerChars_append]
  exact hasSubChars_append_left _ _ _
    (hasSubChars_append_left _ _ _ (by decide))

/-- A single fatal first attempt makes the whole retry call reject
immediately with one attempt and no backoff sleeps. -/
theorem refreshTokenWithRetry_fatalFirst (cfg : Config)
    (o : Nat → AttemptResult) (msg : String)
    (hN : 1 ≤ cfg.maxRetryAttempts) (ho : o 1 = .err msg)
    (hnr : isNonRetryable msg = true) :
    refreshTokenWithRetry o cfg.retryBackoffSeconds cfg.maxRetryAttempts =
      { result := .error (some msg), attempts := 1, waitsMs := [] } := by
  unfold refreshTokenWithRetry
  have h := retryGo_fatal o cfg.retryBackoffSeconds 0 1
    cfg.maxRetryAttempts.toNat none msg (by omega)
    (fun j hj => absurd hj (by omega)) (by simpa using ho) hnr
  simpa using h

/-! ## C6 -/

/-- C6 (amended): for a due token whose first exchange attempt fails with a
Fatal-Grant error, the cycle increments the consecutive-failure counter by
exactly 1, leaves the cache file unmodified, and issues no retry (exactly 1
attempt).  The re-login-required outcome, however, is only reported for the
invalid-grant (HTTP 400 `invalid_grant`) case; for invalid client
credentials (HTTP 401) the cycle's message check matches neither
`'invalid or expired'` nor `'invalid_grant'`, so it reports a generic error
notification instead (whose text still carries the re-login instruction).
The 401 conjunct assumes the rendered message does not accidentally contain
the two patterns through the configured profile name. -/
theorem refreshTokenIfNeeded_fatalGrant_spec (cfg : Config) (now now2 : Int)
    (o : Nat → AttemptResult) (st : DaemonState) (cred : String)
    (cache : JsRecord) (e : String) (tExp : Int)
    (hsd : st.isShuttingDown = false)
    (hread : readTokenCache cfg st.file = .ok cache)
    (he : getField cache "expiresAt" = some e)
    (ht : parseIsoDate e = some tExp)
    (hdue : tExp - now ≤ cfg.refreshThreshold)
    (hN : 1 ≤ cfg.maxRetryAttempts) :
    (∀ (dataIG : JsRecord) (msg : String),
      getField dataIG "error" = some "invalid_grant" →
      refreshToken cfg cred now2 (.httpError 400 dataIG) = .error msg →
      o 1 = .err msg →
      ∃ res, refreshTokenIfNeeded cfg now o st = some res ∧
        Notification.reloginRequired ∈ res.notifications ∧
        res.state.file = st.file ∧
        res.state.consecutiveFailures = st.consecutiveFailures + 1 ∧
        res.exchangeAttempts = 1) ∧
    (∀ (data401 : JsRecord) (msg : String),
      refreshToken cfg cred now2 (.httpError 401 data401) = .error msg →
      o 1 = .err msg →
      strContains msg "invalid or expired" = false →
      strContains msg "invalid_grant" = false →
      ∃ res, refreshTokenIfNeeded cfg now o st = some res ∧
        Notification.reloginRequired ∉ res.notifications ∧
        Notification.refreshError msg ∈ res.notifications ∧
        res.state.file = st.file ∧
        res.state.consecutiveFailures = st.consecutiveFailures + 1 ∧
        res.exchangeAttempts = 1) := by
  constructor
  · intro dataIG msg hig hmsg ho
    have hmsgEq : msg = getReloginErrorMessage cfg "Refresh token is invalid or expired" := by
      simp [refreshToken, hig] at hmsg
      exact hmsg.symm
    subst hmsgEq
    obtain ⟨hcontains, hnr⟩ := invalidGrantMessage_matches cfg
    have htr := refreshTokenWithRetry_fatalFirst cfg o _ hN ho hnr
    have hcycle := refreshTokenIfNeeded_dueFailure cfg now o st cache e tExp _
      hsd hread he ht hdue (by rw [htr])
    rw [htr] at hcycle
    refine ⟨_, hcycle, ?_, rfl, rfl, rfl⟩
    unfold cycleFailure
    simp only [hcontains, true_or, if_pos]
    simp
  · intro data401 msg hmsg ho hno1 hno2
    have hmsgEq : msg = getReloginErrorMessage cfg "Client credentials are invalid" := by
      simp [refreshToken] at hmsg
      exact hmsg.symm
    have hnr : isNonRetryable msg = true := by
      rw [hmsgEq]
      exact invalidClientMessage_matches cfg
    have htr := refreshTokenWithRetry_fatalFirst cfg o _ hN ho hnr
    have hcycle := refreshTokenIfNeeded_dueFailure cfg now o st cache e tExp _
      hsd hread he ht hdue (by rw [htr])
    rw [htr] at hcycle
    refine ⟨_, hcycle, ?_, ?_, rfl, rfl, rfl⟩
    · unfold cycleFailure
      rw [if_neg (by simp [hno1, hno2])]
      dsimp only
      intro hmem
      rcases List.mem_append.mp hmem with hmem | hmem
      · split at hmem <;> simp_all
      · simp at hmem
    · unfold cycleFailure
      rw [if_neg (by simp [hno1, hno2])]
      simp

/-- State of the daemon used by the scheduler witnesses: timer armed, not
shutting down, no failures yet, sample cache on disk. -/
def sampleState : DaemonState :=
  { isShuttingDown := false, timerArmed := true, consecutiveFailures := 0,
    file := some sampleCache }

/-- The message `refreshToken` produces for an HTTP 401 under the sample
configuration. -/
def sample401Message : String :=
  "Client credentials are invalid\nPlease run: aws sso login --profile test-profile"

/-- C6 counterexample: a due cycle whose exchange fails with HTTP 401
(invalid client credentials — a Fatal-Grant classification) does *not*
report the re-login-required outcome: it emits a generic error notification
instead.  (Counter increments by 1, the cache file is untouched and exactly
1 attempt is made, as the claim says.) -/
theorem refreshTokenIfNeeded_fatal401_cex :
    refreshToken sampleConfig "tokR" 0 (.httpError 401 [("error", "unauthorized")]) =
      .error sample401Message ∧
    refreshTokenIfNeeded sampleConfig 1769265000000
        (fun _ => .err sample401Message) sampleState =
      some { state := { isShuttingDown := false, timerArmed := true,
                        consecutiveFailures := 1, file := some sampleCache }
             notifications := [Notification.expiringSoon 0,
               Notification.refreshError sample401Message]
             warned := false, exchangeAttempts := 1 } ∧
    Notification.reloginRequired ∉
      [Notification.expiringSoon 0, Notification.refreshError sample401Message] := by
  refine ⟨rfl, by decide, by decide⟩

/-- C6 witness: the amended theorem applied to a concrete due cycle whose
exchange rejects with HTTP 400 `invalid_grant` — the re-login-required
outcome is reported, the cache file is unmodified, the counter goes from 0
to 1, and exactly 1 attempt is made. -/
theorem refreshTokenIfNeeded_fatalGrant_witness :
    ∃ res, refreshTokenIfNeeded sampleConfig 1769265000000
        (fun _ => .err (getReloginErrorMessage sampleConfig
          "Refresh token is invalid or expired")) sampleState = some res ∧
      Notification.reloginRequired ∈ res.notifications ∧
      res.state.file = sampleState.file ∧
      res.state.consecutiveFailures = sampleState.consecutiveFailures + 1 ∧
      res.exchangeAttempts = 1 :=
  (refreshTokenIfNeeded_fatalGrant_spec sampleConfig 1769265000000 0
    (fun _ => .err (getReloginErrorMessage sampleConfig
      "Refresh token is invalid or expired"))
    sampleState "tokR" sampleCache "2026-01-24T14:30:00Z" 1769265000000
    rfl (by decide) (by decide) (by decide) (by decide) (by decide)).1
    [("error", "invalid_grant")] _ (by decide) rfl rfl

/-- Field-level description of the shared `catch` block. -/
theorem cycleFailure_fields (st : DaemonState) (msg : String)
    (notes : List Notification) (attempts : Nat) :
    (cycleFailure st msg notes attempts).state.timerArmed = st.timerArmed ∧
    (cycleFailure st msg notes attempts).state.isShuttingDown = st.isShuttingDown ∧
    (cycleFailure st msg notes attempts).state.consecutiveFailures =
      st.consecutiveFailures + 1 ∧
    ((cycleFailure st msg notes attempts).warned = true ↔
      st.consecutiveFailures + 1 = MAX_CONSECUTIVE_FAILURES) ∧
    ∃ report, (cycleFailure st msg notes attempts).notifications =
        notes ++ [report] ∧
      ∀ ea ei, report ≠ Notification.refreshed ea ei := by
  unfold cycleFailure
  refine ⟨rfl, rfl, rfl, by simp, ?_⟩
  by_cases hc : strContains msg "invalid or expired" = true ∨
      strContains msg "invalid_grant" = true
  · rw [if_pos hc]
    exact ⟨_, rfl, fun ea ei => by simp⟩
  · rw [if_neg hc]
    exact ⟨_, rfl, fun ea ei => by simp⟩

/-! ## C8 -/

/-- C8: in every cycle, (i) the timer/shutdown flags are untouched — the
scheduler never stops its periodic timer because of failures; (ii) the
warning-level report is emitted exactly when a failed cycle brings the
consecutive-failure counter to exactly `MAX_CONSECUTIVE_FAILURES` (so it
fires once per streak, not on every later failure); (iii) a cycle that
completed a refresh resets the counter to 0; (iv) a failed cycle (one that
reports an error or re-login) increments it by exactly 1; and (v) a cycle
that finds the token not due resets the counter to 0. -/
theorem failureCounter_spec (cfg : Config) (now : Int)
    (o : Nat → AttemptResult) (st : DaemonState) :
    (∀ res, refreshTokenIfNeeded cfg now o st = some res →
      (res.state.timerArmed = st.timerArmed ∧
        res.state.isShuttingDown = st.isShuttingDown) ∧
      (res.warned = true ↔
        (res.state.consecutiveFailures = st.consecutiveFailures + 1 ∧
          st.consecutiveFailures + 1 = MAX_CONSECUTIVE_FAILURES)) ∧
      (∀ ea ei, Notification.refreshed ea ei ∈ res.notifications →
        res.state.consecutiveFailures = 0) ∧
      (((∃ msg, Notification.refreshError msg ∈ res.notifications) ∨
          Notification.reloginRequired ∈ res.notifications) →
        res.state.consecutiveFailures = st.consecutiveFailures + 1)) ∧
    (st.isShuttingDown = false →
      ∀ cache e tExp, readTokenCache cfg st.file = .ok cache →
        getField cache "expiresAt" = some e → parseIsoDate e = some tExp →
        ¬(tExp - now ≤ cfg.refreshThreshold) →
        refreshTokenIfNeeded cfg now o st =
          some { state := { st with consecutiveFailures := 0 },
                 notifications := [], warned := false,
                 exchangeAttempts := 0 }) := by
  constructor
  · intro res hres
    have hfail : ∀ (msg : String) (notes : List Notification) (attempts : Nat),
        (∀ n ∈ notes, ∃ m, n = Notification.expiringSoon m) →
        res = cycleFailure st msg notes attempts →
        (res.state.timerArmed = st.timerArmed ∧
          res.state.isShuttingDown = st.isShuttingDown) ∧
        (res.warned = true ↔
          (res.state.consecutiveFailures = st.consecutiveFailures + 1 ∧
            st.consecutiveFailures + 1 = MAX_CONSECUTIVE_FAILURES)) ∧
        (∀ ea ei, Notification.refreshed ea ei ∈ res.notifications →
          res.state.consecutiveFailures = 0) ∧
        (((∃ msg, Notification.refreshError msg ∈ res.notifications) ∨
            Notification.reloginRequired ∈ res.notifications) →
          res.state.consecutiveFailures = st.consecutiveFailures + 1) := by
      rintro msg notes attempts hnotes rfl
      obtain ⟨h1, h2, h3, h4, report, h5, h6⟩ :=
        cycleFailure_fields st msg notes attempts
      refine ⟨⟨h1, h2⟩, by rw [h4, h3]; tauto, ?_, fun _ => h3⟩
      intro ea ei hmem
      rw [h5] at hmem
      rcases List.mem_append.mp hmem with hmem | hmem
      · obtain ⟨m, hm⟩ := hnotes _ hmem
        cases hm
      · simp only [List.mem_singleton] at hmem
        exact absurd hmem.symm (h6 ea ei)
    unfold refreshTokenIfNeeded at hres
    dsimp only at hres
    split at hres
    -- shutting down: state unchanged, nothing reported
    · rw [Option.some_inj] at hres
      subst hres
      refine ⟨⟨rfl, rfl⟩, by simp, by simp, by simp⟩
    · split at hres
      -- cache read failed
      · rw [Option.some_inj] at hres
        exact hfail _ _ _ (by simp) hres.symm
      · split at hres
        · split at hres
          -- not due: counter reset
          · rw [Option.some_inj] at hres
            subst hres
            refine ⟨⟨rfl, rfl⟩, by simp, by simp, by simp⟩
          · split at hres
            · split at hres
              -- refresh succeeded and cache written
              · rw [Option.some_inj] at hres
                subst hres
                refine ⟨⟨rfl, rfl⟩, by simp, fun _ _ _ => rfl, ?_⟩
                rintro (⟨msg, hmem⟩ | hmem) <;>
                  · rcases List.mem_append.mp hmem with hmem | hmem
                    · split at hmem <;> simp_all
                    · simp_all
              -- refresh succeeded but the re-read/write failed
              · rw [Option.some_inj] at hres
                refine hfail _ _ _ ?_ hres.symm
                intro n hn
                split at hn <;> simp_all
            -- retry loop rejected
            · rw [Option.some_inj] at hres
              refine hfail _ _ _ ?_ hres.symm
              intro n hn
              split at hn <;> simp_all
            · exact absurd hres (by simp)
        -- unreachable date branch after a successful read
        · rw [Option.some_inj] at hres
          exact hfail _ _ _ (by simp) hres.symm
  · intro hsd cache e tExp hread he ht hnotdue
    unfold refreshTokenIfNeeded
    rw [hsd]
    simp only [Bool.false_eq_true, if_false]
    rw [hread]
    dsimp only
    rw [he]
    simp only [Option.getD_some]
    rw [ht]
    dsimp only
    rw [if_pos hnotdue]

/-- C8 witness: a cycle that finds the token not yet due resets a non-zero
failure counter to 0, emits nothing, and leaves the timer armed. -/
theorem failureCounter_spec_witness :
    refreshTokenIfNeeded sampleConfig 1769264000000 (fun _ => .err "x")
        { sampleState with consecutiveFailures := 3 } =
      some { state := sampleState, notifications := [], warned := false,
             exchangeAttempts := 0 } :=
  (failureCounter_spec sampleConfig 1769264000000 (fun _ => .err "x")
    { sampleState with consecutiveFailures := 3 }).2 rfl
    sampleCache "2026-01-24T14:30:00Z" 1769265000000
    (by decide) (by decide) (by decide) (by decide)

end AwsAutoRefresh
